import Mathlib

/-!
# Verification of the strategix task planner core

Shallow embedding of `src/strategix/core.py`: the task/step data model,
the ready-set resolver, step execution with validation, and the
`execute_task` loop, together with theorems settling the specification
claims about them.

Python `datetime` values are modelled as abstract `Nat` timestamps:
the code only stores `pendulum.now()` and compares for presence, never
for magnitude, so any totally ordered carrier is faithful.
Step results (Python `Any`, in practice the strings produced by the
executors or `None`) are modelled as `Option String`.
-/

namespace Strategix

/-- Status of a task in the execution pipeline (`TaskStatus` enum). -/
inductive TaskStatus where
  | pending
  | analyzing
  | planning
  | in_progress
  | blocked
  | completed
  | failed
  | cancelled
deriving DecidableEq, Repr

/-- Priority levels for task execution (`TaskPriority` enum). -/
inductive TaskPriority where
  | critical
  | high
  | medium
  | low
  | background
deriving DecidableEq, Repr

/-- Types of tasks for specialized handling (`TaskType` enum). -/
inductive TaskType where
  | research
  | coding
  | analysis
  | creative
  | system
  | learning
  | communication
  | decision
deriving DecidableEq, Repr

/-- A single step in a task plan (`TaskStep` dataclass). -/
structure TaskStep where
  step_id : String
  description : String
  action : String
  prerequisites : List String := []
  estimated_duration : Nat := 60
  required_tools : List String := []
  validation_criteria : List String := []
  status : TaskStatus := .pending
  result : Option String := none
  error : Option String := none
  started_at : Option Nat := none
  completed_at : Option Nat := none
deriving DecidableEq, Repr

/-- `TaskStep.is_ready`: every prerequisite id appears in `completed_steps`. -/
def TaskStep.is_ready (s : TaskStep) (completed_steps : List String) : Bool :=
  s.prerequisites.all (fun prereq => completed_steps.contains prereq)

/-- `TaskStep.mark_started`: set status `in_progress`, record start time. -/
def TaskStep.mark_started (s : TaskStep) (now : Nat) : TaskStep :=
  { s with status := .in_progress, started_at := some now }

/-- `TaskStep.mark_completed`: set status `completed`, record completion
time and result. -/
def TaskStep.mark_completed (s : TaskStep) (res : Option String) (now : Nat) :
    TaskStep :=
  { s with status := .completed, completed_at := some now, result := res }

/-- `TaskStep.mark_failed`: set status `failed`, record completion time and
the error message. -/
def TaskStep.mark_failed (s : TaskStep) (err : String) (now : Nat) : TaskStep :=
  { s with status := .failed, completed_at := some now, error := some err }

/-- A complex task to be decomposed and executed (`Task` dataclass). -/
structure Task where
  task_id : String
  description : String
  task_type : TaskType
  priority : TaskPriority
  steps : List TaskStep := []
  status : TaskStatus := .pending
  created_at : Nat := 0
  started_at : Option Nat := none
  completed_at : Option Nat := none
deriving DecidableEq, Repr

/-- `Task.get_ready_steps`: steps whose status is `PENDING` and whose
prerequisites are all in `completed_step_ids`, in declaration order. -/
def Task.get_ready_steps (t : Task) (completed_step_ids : List String) :
    List TaskStep :=
  t.steps.filter
    (fun step => step.status == TaskStatus.pending
      && step.is_ready completed_step_ids)

/-- The body of `Task.is_complete`, on a bare step list (also used by the
execution loop, which mutates the step list in place). -/
def stepsComplete (steps : List TaskStep) : Bool :=
  steps.all
    (fun step => step.status == TaskStatus.completed
      || step.status == TaskStatus.cancelled)

/-- `Task.is_complete`: every step is `COMPLETED` or `CANCELLED`. -/
def Task.is_complete (t : Task) : Bool :=
  stepsComplete t.steps

/-- `Task.get_progress`: completed-or-cancelled count over total count,
`0` for a task with no steps.  Python float division is modelled as exact
rational division. -/
def Task.get_progress (t : Task) : ℚ :=
  if t.steps = [] then 0
  else
    ((t.steps.filter
      (fun step => step.status == TaskStatus.completed
        || step.status == TaskStatus.cancelled)).length : ℚ)
      / (t.steps.length : ℚ)

/-! ## Step execution (`TaskPlanner._execute_step` / `_validate_step`)

The Step Executor is an external collaborator: its behaviour at one
dispatch is an input, either a returned result or a raised exception. -/

/-- Outcome of the Step Executor for one dispatched step: the coroutine
either returns a result or raises with an error message. -/
inductive StepOutcome where
  | success (result : Option String)
  | failure (error : String)
deriving DecidableEq, Repr

/-- `TaskPlanner._validate_step`: an empty criteria list auto-validates;
otherwise the check is exactly `result is not None`. -/
def validate_step (step : TaskStep) (result : Option String) : Bool :=
  if step.validation_criteria = [] then true else result.isSome

/-- `TaskPlanner._execute_step`: mark the step started, run the executor,
then on a returned result mark the step completed or (failed validation)
failed, returning the result; on a raised exception mark the step failed
and re-raise (`Except.error`).  `now` abstracts `pendulum.now()`. -/
def execute_step (step : TaskStep) (outcome : StepOutcome) (now : Nat) :
    TaskStep × Except String (Option String) :=
  let started := step.mark_started now
  match outcome with
  | .failure e => (started.mark_failed e now, Except.error e)
  | .success res =>
      if validate_step started res then
        (started.mark_completed res now, Except.ok res)
      else
        (started.mark_failed "Validation failed" now, Except.ok res)

/-! ## The `execute_task` loop

Python mutates `TaskStep` objects in place through aliases held by
`task.steps`; the embedding threads an explicit state whose `steps` list
is updated by index.  `batches` is an observer field recording, per loop
iteration, the indices dispatched in that iteration's batch (the spec
verifies the concurrency bound "via an executor that records" dispatches);
it influences nothing. -/

/-- Mutable state of one `execute_task` run: the task's step list, the
local `completed_steps` accumulator, the `results` mapping (as an ordered
association list), and the observer trace of dispatched batches. -/
structure ExecState where
  steps : List TaskStep
  completed_steps : List String := []
  results : List (String × Option String) := []
  batches : List (List Nat) := []
deriving DecidableEq, Repr

/-- Indices of the steps `task.get_ready_steps(completed)` would return:
status `PENDING` and every prerequisite in `completed`. -/
def readyIndices (steps : List TaskStep) (completed : List String) :
    List Nat :=
  (List.range steps.length).filter (fun i =>
    ((steps.get? i).map (fun s =>
      s.status == TaskStatus.pending && s.is_ready completed)).getD false)

/-- One awaited runner of the batch loop: run step `i` through
`_execute_step`, write the updated step back, and, when the runner
returned normally, record its result and append the step id to
`completed_steps`; when it raised, the `except` arm leaves
`completed_steps` and `results` untouched (the runner has already marked
the step failed, and the outer `mark_failed(str(e))` re-writes the same
fields). -/
def runOne (outcome : Nat → StepOutcome) (now : Nat) (st : ExecState)
    (i : Nat) : ExecState :=
  match st.steps.get? i with
  | none => st
  | some step =>
    let p := execute_step step (outcome i) now
    match p.2 with
    | Except.ok res =>
        { st with
          steps := st.steps.set i p.1
          results := st.results ++ [(step.step_id, res)]
          completed_steps := st.completed_steps ++ [step.step_id] }
    | Except.error _ =>
        { st with steps := st.steps.set i p.1 }

/-- The `while not task.is_complete()` loop of `execute_task`, with
explicit fuel.  `none` means the fuel ran out before the loop exited;
`some (st, blocked)` is a real exit, `blocked = true` exactly when the
loop stopped through the no-ready-step-but-still-pending branch.  Each
iteration: if no step is ready and some step is still `PENDING`, mark the
task blocked and break; otherwise dispatch the first
`max_concurrent_tasks` ready steps and await each in dispatch order. -/
def execLoop (outcome : Nat → StepOutcome) (maxConc : Nat) :
    Nat → ExecState → Option (ExecState × Bool)
  | 0, _ => none
  | Nat.succ fuel, st =>
    if stepsComplete st.steps then some (st, false)
    else
      let ready := readyIndices st.steps st.completed_steps
      if ready = [] ∧ st.steps.any (fun s => s.status == TaskStatus.pending)
      then
        some (st, true)
      else
        let batch := ready.take maxConc
        execLoop outcome maxConc fuel
          { (batch.foldl (runOne outcome 0) st) with
              batches := st.batches ++ [batch] }

/-- `TaskPlanner.execute_task`: mark the task in progress, run the loop,
then set the final status: `COMPLETED` when the loop exited with every
step completed/cancelled, otherwise the `BLOCKED` set by the breaking
branch.  `none` models the loop never terminating within `fuel`
iterations. -/
def execute_task (outcome : Nat → StepOutcome) (maxConc : Nat) (fuel : Nat)
    (task : Task) : Option Task :=
  match execLoop outcome maxConc fuel { steps := task.steps } with
  | none => none
  | some (st, blocked) =>
    if blocked then
      some { task with
             steps := st.steps
             status := .blocked
             started_at := some 0 }
    else
      some { task with
             steps := st.steps
             status := .completed
             started_at := some 0
             completed_at := some 0 }

/-! ## Plan generation (`_generate_plan` and friends) and `create_task` -/

/-- One entry of the JSON plan consumed by `create_task` (the dict shape
produced by `_generate_template_plan` / `_generate_default_plan` and
expected from the LLM). -/
structure StepSpec where
  step_id : String
  description : String := ""
  action : String := ""
  prerequisites : List String := []
  estimated_duration : Nat := 60
  required_tools : List String := []
  validation_criteria : List String := []
deriving DecidableEq, Repr

/-- `TaskPlanner._load_task_templates`: the predefined templates, each an
ordered list of `(action, duration)` pairs. -/
def task_templates : List (String × List (String × Nat)) :=
  [("code_generation",
     [("understand_requirements", 30), ("design_solution", 60),
      ("implement_code", 180), ("test_implementation", 120),
      ("refactor_optimize", 90)]),
   ("problem_solving",
     [("analyze_problem", 60), ("identify_constraints", 30),
      ("generate_solutions", 90), ("evaluate_options", 60),
      ("implement_solution", 120)]),
   ("research",
     [("define_scope", 30), ("gather_information", 180),
      ("analyze_findings", 120), ("synthesize_insights", 90),
      ("create_summary", 60)])]

/-- `template_map.get(task.task_type, 'problem_solving')` inside
`_generate_template_plan`. -/
def template_map_get (ty : TaskType) : String :=
  match ty with
  | .coding => "code_generation"
  | .research => "research"
  | .analysis => "problem_solving"
  | _ => "problem_solving"

/-- Python `str.title()` on the character list: uppercase the first
character of each alphabetic run, lowercase the rest. -/
def pyTitleAux : Bool → List Char → List Char
  | _, [] => []
  | prevAlpha, c :: cs =>
    let c' := if c.isAlpha then
                (if prevAlpha then c.toLower else c.toUpper)
              else c
    c' :: pyTitleAux c.isAlpha cs

/-- Python `str.title()`. -/
def pyTitle (s : String) : String :=
  String.mk (pyTitleAux false s.data)

/-- `TaskPlanner._generate_default_plan`: the fixed 3-step
analyze → execute → validate plan. -/
def generate_default_plan (_task : Task) : List StepSpec :=
  [{ step_id := "step_1"
     description := "Analyze the task requirements"
     action := "analyze"
     prerequisites := []
     estimated_duration := 30
     validation_criteria := ["Requirements understood"] },
   { step_id := "step_2"
     description := "Execute main task"
     action := "execute"
     prerequisites := ["step_1"]
     estimated_duration := 120
     validation_criteria := ["Task executed"] },
   { step_id := "step_3"
     description := "Validate results"
     action := "validate"
     prerequisites := ["step_2"]
     estimated_duration := 30
     validation_criteria := ["Results validated"] }]

/-- `TaskPlanner._generate_template_plan`: pick a template by task type
(default `problem_solving`), derive the numbered steps, and only if that
yields no steps fall back to the default plan. -/
def generate_template_plan (task : Task) : List StepSpec :=
  let template_name := template_map_get task.task_type
  let template := (task_templates.lookup template_name).getD []
  let plan := template.enum.map (fun p =>
    ({ step_id := "step_" ++ toString (p.1 + 1)
       description := pyTitle ((p.2.1).replace "_" " ") ++ " for "
         ++ task.description.take 50
       action := p.2.1
       prerequisites := if p.1 > 0 then ["step_" ++ toString p.1] else []
       estimated_duration := p.2.2
       required_tools := []
       validation_criteria := ["Completed " ++ p.2.1] } : StepSpec))
  if plan = [] then generate_default_plan task else plan

/-- What the Plan Generator collaborator did on one `create_task` call:
it was unavailable (no engine / no llm), its chain raised (caught and
logged), its response failed to parse as a JSON list, or it produced a
parsed list of step specs. -/
inductive GenOutcome where
  | unavailable
  | genError (e : String)
  | invalid
  | output (plan : List StepSpec)
deriving DecidableEq, Repr

/-- `TaskPlanner._generate_plan`: a parsed non-empty list from the LLM is
returned as-is; every other case falls through to
`_generate_template_plan`. -/
def generate_plan (gen : GenOutcome) (task : Task) : List StepSpec :=
  match gen with
  | .output plan =>
      if plan ≠ [] then plan else generate_template_plan task
  | _ => generate_template_plan task

/-- The `Task` object as `create_task` builds it before planning
(status `PLANNING`, no steps yet). -/
def initial_task (task_id description : String) (task_type : TaskType)
    (priority : TaskPriority) : Task :=
  { task_id := task_id
    description := description
    task_type := task_type
    priority := priority
    status := .planning }

/-- The `TaskStep(...)` constructor call inside `create_task`'s plan
loop: every field is copied from the step spec. -/
def specToStep (d : StepSpec) : TaskStep :=
  { step_id := d.step_id
    description := d.description
    action := d.action
    prerequisites := d.prerequisites
    estimated_duration := d.estimated_duration
    required_tools := d.required_tools
    validation_criteria := d.validation_criteria }

/-- `TaskPlanner.create_task`: build the task, generate its plan, append
one `TaskStep` per plan entry, set status `PENDING` and enqueue it (the
returned task in `PENDING` status is the enqueued task).  No validation
of any kind is performed on the plan. -/
def create_task (gen : GenOutcome) (task_id description : String)
    (task_type : TaskType) (priority : TaskPriority) : Task :=
  let task := initial_task task_id description task_type priority
  let plan := generate_plan gen task
  { task with steps := plan.map specToStep, status := .pending }

/-! ## Spec-side comparison definitions

These two definitions follow the specification's words, not the source;
they exist only to be compared with the source-derived definitions. -/

/-- Validation as §4.3 of the specification words it: with a non-empty
criteria list, a step is valid iff the result is non-null AND non-empty.
Comparison definition for `validate_step`. -/
def validate_step_spec (step : TaskStep) (result : Option String) : Bool :=
  if step.validation_criteria = [] then true
  else
    match result with
    | none => false
    | some s => !(s == "")

/-- The per-task step bound as §5 of the specification words it: an
independent configuration input `max_concurrent_steps` with default 3.
Comparison definition for the bound `execute_task` actually uses. -/
def spec_max_concurrent_steps (config : List (String × Nat)) : Nat :=
  (config.lookup "max_concurrent_steps").getD 3

/-- `TaskPlanner.__init__`: the one concurrency bound the planner reads
from its configuration, `config.get('max_concurrent_tasks', 3)`; the same
field bounds the scheduler's running-task admission and the per-iteration
step batch in `execute_task`. -/
def planner_max_concurrent_tasks (config : List (String × Nat)) : Nat :=
  (config.lookup "max_concurrent_tasks").getD 3

/-- A task holding a step whose prerequisite list names an identifier
that is not the id of any step of the same task (§3's dangling
reference). -/
def has_dangling_prereq (t : Task) : Bool :=
  t.steps.any (fun s =>
    s.prerequisites.any (fun p =>
      !(t.steps.any (fun s2 => s2.step_id == p))))

/-! ## Step lifecycle operation sequences (for the timestamp invariant)

`mark_started` / `mark_completed` / `mark_failed` are the only writers of
a step's status and timestamps; an arbitrary call sequence is a list of
operations folded over the step. -/

/-- One lifecycle call on a step, with the `pendulum.now()` value it
observed. -/
inductive StepOp where
  | start (now : Nat)
  | complete (result : Option String) (now : Nat)
  | fail (error : String) (now : Nat)
deriving DecidableEq, Repr

/-- Apply one lifecycle call. -/
def applyOp (s : TaskStep) : StepOp → TaskStep
  | .start now => s.mark_started now
  | .complete r now => s.mark_completed r now
  | .fail e now => s.mark_failed e now

/-- Apply a sequence of lifecycle calls in order. -/
def applyOps (s : TaskStep) (ops : List StepOp) : TaskStep :=
  ops.foldl applyOp s

/-- The timestamp invariant of claim C10: terminal-by-execution statuses
carry a completion timestamp, `in_progress` carries a start timestamp. -/
def timestamps_ok (s : TaskStep) : Prop :=
  (s.status = .completed ∨ s.status = .failed → s.completed_at ≠ none)
  ∧ (s.status = .in_progress → s.started_at ≠ none)

/-! ## Concrete fixtures

Small concrete tasks, steps and executor behaviours used to evaluate the
definitions at specific inputs. -/

/-- A blank task shell for fixtures. -/
def exTask : Task :=
  { task_id := "t", description := "d", task_type := .analysis,
    priority := .medium }

/-- Step `a`: no prerequisites, one validation criterion. -/
def exStepA : TaskStep :=
  { step_id := "a", description := "", action := "",
    validation_criteria := ["c"] }

/-- Step `b`: depends on `a`, no validation criteria. -/
def exStepB : TaskStep :=
  { step_id := "b", description := "", action := "",
    prerequisites := ["a"] }

/-- Step `d`: no prerequisites. -/
def exStepD : TaskStep :=
  { step_id := "d", description := "", action := "" }

/-- Step `c`: depends on `d`. -/
def exStepC : TaskStep :=
  { step_id := "c", description := "", action := "",
    prerequisites := ["d"] }

/-- Executor behaviour for the C1 run: step index 0 (`a`) returns `None`
(its non-empty criteria then fail validation), index 2 (`d`) raises,
everything else returns a string. -/
def c1outcome : Nat → StepOutcome
  | 0 => .success none
  | 2 => .failure "boom"
  | _ => .success (some "ok")

/-- The C1 task state: steps `a`, `b`, `d`, `c` as above. -/
def c1state : ExecState :=
  { steps := [exStepA, exStepB, exStepD, exStepC] }

/-- An executor that always raises. -/
def alwaysFail : Nat → StepOutcome := fun _ => .failure "boom"

/-- An executor that always returns the string `"r"`. -/
def alwaysOk : Nat → StepOutcome := fun _ => .success (some "r")

/-- A single step with no prerequisites and no criteria. -/
def exSolo : TaskStep := { step_id := "s1", description := "", action := "" }

/-- The C3 task: one step whose executor raises. -/
def c3task : Task := { exTask with steps := [exSolo] }

/-- An independent (no-prerequisite) step with a numbered id. -/
def exInd (n : Nat) : TaskStep :=
  { step_id := "s" ++ toString n, description := "", action := "" }

/-- The C9 task state: four independent pending steps. -/
def c9state : ExecState :=
  { steps := [exInd 1, exInd 2, exInd 3, exInd 4] }

/-- The C9 configuration: only the spec's `max_concurrent_steps` key is
set, to 1. -/
def c9config : List (String × Nat) := [("max_concurrent_steps", 1)]

/-- Cyclic step `x`: depends on `y`. -/
def exStepX : TaskStep :=
  { step_id := "x", description := "", action := "", prerequisites := ["y"] }

/-- Cyclic step `y`: depends on `x`. -/
def exStepY : TaskStep :=
  { step_id := "y", description := "", action := "", prerequisites := ["x"] }

/-- The C4 witness task: the two-step cycle `x ↔ y`. -/
def c4task : Task := { exTask with steps := [exStepX, exStepY] }

/-- A plan whose only step names a nonexistent prerequisite. -/
def danglingPlan : List StepSpec :=
  [{ step_id := "s1", prerequisites := ["ghost"] }]

/-- The task `create_task` assembles from the dangling plan. -/
def danglingTask : Task :=
  create_task (.output danglingPlan) "t" "d" .analysis .medium

/-- A step carrying one validation criterion, for the validation
fixtures. -/
def exCritStep : TaskStep :=
  { step_id := "s", description := "", action := "",
    validation_criteria := ["c"] }

/-- `exSolo` after its executor raised `"boom"`: marked started then
failed within one loop iteration. -/
def exSoloFailed : TaskStep :=
  { exSolo with
    status := .failed
    error := some "boom"
    started_at := some 0
    completed_at := some 0 }

/-- `exSolo` after completing with result `"r"`. -/
def exSoloDone : TaskStep :=
  { exSolo with
    status := .completed
    result := some "r"
    started_at := some 0
    completed_at := some 0 }

/-- The final execution state of the one-step always-succeeding run,
used to instantiate the batch-bound theorem. -/
def c9soloFinal : ExecState :=
  { steps := [exSoloDone]
    completed_steps := ["s1"]
    results := [("s1", some "r")]
    batches := [[0]] }

/-! ## Derived forms of the loop body (proved equal by unfolding) -/

/-- The state one non-exiting iteration of the `execute_task` loop
produces: dispatch the first `maxConc` ready steps, await each, record
the batch. -/
def loopNext (outcome : Nat → StepOutcome) (maxConc : Nat)
    (st : ExecState) : ExecState :=
  let batch := (readyIndices st.steps st.completed_steps).take maxConc
  { (batch.foldl (runOne outcome 0) st) with
      batches := st.batches ++ [batch] }

/-- Number of steps still `PENDING` — the loop's termination measure. -/
def pendingCount (steps : List TaskStep) : Nat :=
  steps.countP (fun s => s.status == TaskStatus.pending)

/-- Statuses a step list can hold when no runner has ever failed:
`pending` before dispatch, `completed` after, or an externally set
`cancelled`. -/
def goodSteps (steps : List TaskStep) : Prop :=
  ∀ s ∈ steps, s.status = TaskStatus.pending
    ∨ s.status = TaskStatus.completed
    ∨ s.status = TaskStatus.cancelled

/-! ## Theorems -/

/-- Claim C2: `get_ready_steps(task, completed_ids)` returns exactly the
steps whose status is `pending` and all of whose prerequisite identifiers
are members of `completed_ids`; the output is a sublist of `task.steps`
(the task's original step order); and the function is pure, so two calls
with identical inputs return identical, identically-ordered output. -/
theorem get_ready_steps_exact (t : Task) (ids : List String) :
    (∀ s : TaskStep, s ∈ t.get_ready_steps ids ↔
        s ∈ t.steps ∧ s.status = TaskStatus.pending ∧
          ∀ p ∈ s.prerequisites, p ∈ ids)
    ∧ (t.get_ready_steps ids).Sublist t.steps
    ∧ t.get_ready_steps ids = t.get_ready_steps ids := by
  refine ⟨fun s => ?_, List.filter_sublist _, rfl⟩
  simp [Task.get_ready_steps, TaskStep.is_ready, List.mem_filter,
        List.all_eq_true, List.elem_iff, and_assoc]

/-- Claim C5 counterexample: for the task with no steps, `is_complete()`
is true (an empty conjunction) while `get_progress()` is `0`, so
"`get_progress()` equals 1 if and only if `is_complete()` is true" fails
at that task. -/
theorem progress_one_iff_complete_fails_on_empty :
    ¬ ((exTask.get_progress = 1) ↔ exTask.is_complete = true) := by
  decide

/-- Claim C5 (amended): `get_progress()` lies in `[0,1]` and equals `0`
for a task with no steps; for a task with at least one step,
`get_progress()` equals 1 iff `is_complete()` is true.  (The empty task
is the one exception to the iff: there `is_complete()` is true while
`get_progress()` is `0`.) -/
theorem get_progress_bounds (t : Task) :
    0 ≤ t.get_progress ∧ t.get_progress ≤ 1
    ∧ (t.steps = [] → t.get_progress = 0)
    ∧ (t.steps ≠ [] → (t.get_progress = 1 ↔ t.is_complete = true)) := by
  by_cases h : t.steps = []
  · simp [Task.get_progress, h]
  · have hlen : 0 < ((t.steps.length : ℚ)) := by
      have h0 : t.steps.length ≠ 0 := by
        simpa [List.length_eq_zero] using h
      positivity
    refine ⟨?_, ?_, fun h' => absurd h' h, fun _ => ?_⟩
    · simp only [Task.get_progress, if_neg h]
      exact div_nonneg (Nat.cast_nonneg _) hlen.le
    · simp only [Task.get_progress, if_neg h]
      exact (div_le_one hlen).mpr (Nat.cast_le.mpr (List.length_filter_le _ _))
    · simp only [Task.get_progress, if_neg h]
      rw [div_eq_one_iff_eq hlen.ne', Nat.cast_inj,
          List.filter_length_eq_length]
      simp [Task.is_complete, stepsComplete, List.all_eq_true]

/-- Claim C5 witness: the amended iff applied to the two-step cyclic
task, whose step list is non-empty. -/
theorem get_progress_bounds_witness :
    c4task.get_progress = 1 ↔ c4task.is_complete = true :=
  (get_progress_bounds c4task).2.2.2 (by decide)

/-- Claim C7 counterexample: for a step with a non-empty criteria list
and the empty-string result (non-null but empty), `_validate_step`
returns `True`, while the claim's "valid iff the result is non-null and
non-empty" demands `False`. -/
theorem validate_step_empty_result_divergence :
    validate_step exCritStep (some "") = true
    ∧ validate_step_spec exCritStep (some "") = false := by
  exact ⟨rfl, rfl⟩

/-- Claim C7 (amended): with an empty criteria list validation succeeds
regardless of the result; with a non-empty criteria list the step is
valid if and only if the result is non-null (an empty-but-non-null
result also passes).  Accordingly `_execute_step` marks a returned-result
step `completed` exactly when that check passes and `failed` otherwise. -/
theorem validate_step_iff (step : TaskStep) (r : Option String) (now : Nat) :
    (validate_step step r = true ↔
      (step.validation_criteria = [] ∨ r ≠ none))
    ∧ (execute_step step (.success r) now).1.status =
        (if validate_step step r then TaskStatus.completed
         else TaskStatus.failed) := by
  constructor
  · unfold validate_step
    by_cases h : step.validation_criteria = [] <;>
      simp [h, Option.isSome_iff_ne_none]
  · have hcrit : validate_step (step.mark_started now) r
        = validate_step step r := rfl
    by_cases h : validate_step step r = true
    · simp [execute_step, hcrit, h, TaskStep.mark_completed]
    · simp [execute_step, hcrit, h, TaskStep.mark_failed]

/-- Claim C6 counterexample: with the Plan Generator unavailable,
`create_task` builds the 5-step `problem_solving` template plan, not the
fixed 3-step analyze → execute → validate default plan. -/
theorem unavailable_generator_gives_template_plan :
    ¬ ((create_task .unavailable "t" "d" .analysis .medium).steps.map
        (fun s => (s.step_id, s.action, s.prerequisites))
      = [("step_1", "analyze", ([] : List String)),
         ("step_2", "execute", ["step_1"]),
         ("step_3", "validate", ["step_2"])]) := by
  decide

/-- Claim C6 (amended): whenever the Plan Generator errors, returns an
empty list, or is unavailable, `create_task` falls back to the 5-step
template plan selected by task type (default `problem_solving`); the
fixed 3-step default plan would be used only if the template plan were
empty, which never happens for the built-in templates. -/
theorem fallback_is_template_plan (gen : GenOutcome) (tid d : String)
    (ty : TaskType) (pr : TaskPriority)
    (h : gen = .unavailable ∨ (∃ e, gen = .genError e) ∨ gen = .invalid
         ∨ gen = .output []) :
    (create_task gen tid d ty pr).steps
      = (generate_template_plan (initial_task tid d ty pr)).map specToStep
    ∧ (create_task gen tid d ty pr).steps.length = 5 := by
  have hplan : generate_plan gen (initial_task tid d ty pr)
      = generate_template_plan (initial_task tid d ty pr) := by
    rcases h with h | ⟨e, h⟩ | h | h <;> subst h <;> rfl
  have hlen : (generate_template_plan (initial_task tid d ty pr)).length
      = 5 := by
    cases ty <;> rfl
  constructor
  · simp [create_task, hplan]
  · simp [create_task, hplan, hlen]

/-- Claim C6 witness: the amended statement at a concrete unavailable
generator. -/
theorem fallback_is_template_plan_witness :
    (create_task .unavailable "t" "d" .analysis .medium).steps
      = (generate_template_plan
          (initial_task "t" "d" .analysis .medium)).map specToStep
    ∧ (create_task .unavailable "t" "d" .analysis .medium).steps.length
      = 5 :=
  fallback_is_template_plan .unavailable "t" "d" .analysis .medium
    (Or.inl rfl)

/-- Claim C8 counterexample: `create_task` given a plan whose only step
names the nonexistent prerequisite `"ghost"` assembles and enqueues the
task (status `pending`, dangling reference intact) instead of rejecting
it; the error only surfaces later, as `execute_task` driving the task to
`blocked`. -/
theorem dangling_prereq_not_rejected :
    has_dangling_prereq danglingTask = true
    ∧ danglingTask.status = TaskStatus.pending
    ∧ danglingTask.steps.map TaskStep.prerequisites = [["ghost"]]
    ∧ (execute_task alwaysOk 3 4 danglingTask).map Task.status
        = some TaskStatus.blocked := by
  refine ⟨rfl, rfl, rfl, rfl⟩

/-- Claim C8 (amended): `create_task` performs no validation of
prerequisite references at task-assembly time: every non-empty generator
plan, dangling references included, is assembled verbatim into steps and
the task is enqueued in `pending` status. -/
theorem create_task_assembles_any_plan (plan : List StepSpec)
    (tid d : String) (ty : TaskType) (pr : TaskPriority)
    (h : plan ≠ []) :
    (create_task (.output plan) tid d ty pr).steps = plan.map specToStep
    ∧ (create_task (.output plan) tid d ty pr).status
        = TaskStatus.pending := by
  constructor
  · simp [create_task, generate_plan, h]
  · rfl

/-- Claim C8 witness: the amended statement applied to the dangling
plan. -/
theorem create_task_assembles_any_plan_witness :
    (create_task (.output danglingPlan) "t" "d" .analysis .medium).steps
      = danglingPlan.map specToStep
    ∧ (create_task (.output danglingPlan) "t" "d"
        .analysis .medium).status = TaskStatus.pending :=
  create_task_assembles_any_plan danglingPlan "t" "d" .analysis .medium
    (by decide)

/-- Claim C4: a task all of whose (pending) steps carry a non-empty
prerequisite set — a dependency cycle, no step can ever become ready —
makes `execute_task` terminate at once with final status `blocked`, the
steps untouched; it is never reported `completed`. -/
theorem cyclic_task_blocks (outcome : Nat → StepOutcome) (m fuel : Nat)
    (t : Task) (hne : t.steps ≠ [])
    (hsteps : ∀ s ∈ t.steps, s.status = TaskStatus.pending
        ∧ s.prerequisites ≠ [])
    (hfuel : 1 ≤ fuel) :
    ∃ t', execute_task outcome m fuel t = some t'
      ∧ t'.status = TaskStatus.blocked ∧ t'.steps = t.steps := by
  obtain ⟨f, rfl⟩ : ∃ f, fuel = f + 1 := ⟨fuel - 1, by omega⟩
  obtain ⟨s0, hs0⟩ := List.exists_mem_of_ne_nil t.steps hne
  have hnc : ¬ (stepsComplete t.steps = true) := by
    simp only [stepsComplete, List.all_eq_true, not_forall]
    refine ⟨s0, hs0, ?_⟩
    simp [(hsteps s0 hs0).1]
  have hready : readyIndices t.steps [] = [] := by
    rw [readyIndices, List.filter_eq_nil_iff]
    intro i hi
    rw [List.mem_range] at hi
    obtain ⟨s, hgs⟩ : ∃ s, t.steps.get? i = some s := by
      rw [List.get?_eq_get hi]; exact ⟨_, rfl⟩
    obtain ⟨q, qs, hq⟩ := List.exists_cons_of_ne_nil
      (hsteps s (List.get?_mem hgs)).2
    have hgs2 : t.steps[i]? = some s := by
      rw [← List.get?_eq_getElem?]; exact hgs
    simp [hgs, hgs2, TaskStep.is_ready, hq]
  have hpend : t.steps.any
      (fun s => s.status == TaskStatus.pending) = true := by
    rw [List.any_eq_true]
    exact ⟨s0, hs0, by simp [(hsteps s0 hs0).1]⟩
  have hloop : execLoop outcome m (f + 1) { steps := t.steps }
      = some ({ steps := t.steps }, true) := by
    unfold execLoop
    rw [if_neg hnc]
    simp only []
    rw [if_pos ⟨hready, hpend⟩]
  refine ⟨{ t with status := TaskStatus.blocked, started_at := some 0 },
    ?_, rfl, rfl⟩
  simp [execute_task, hloop]

/-- Claim C4 witness: the theorem applied to the concrete two-step cycle
`x ↔ y`. -/
theorem cyclic_task_blocks_witness :
    ∃ t', execute_task alwaysOk 3 1 c4task = some t'
      ∧ t'.status = TaskStatus.blocked ∧ t'.steps = c4task.steps :=
  cyclic_task_blocks alwaysOk 3 1 c4task (by decide) (by decide) (by decide)

/-- Each single lifecycle call preserves the timestamp invariant
(in fact re-establishes it unconditionally: each call writes the
timestamp its resulting status requires). -/
theorem timestamps_ok_applyOp (s : TaskStep) (op : StepOp) :
    timestamps_ok (applyOp s op) := by
  cases op <;>
    simp [applyOp, TaskStep.mark_started, TaskStep.mark_completed,
          TaskStep.mark_failed, timestamps_ok]

/-- The invariant survives any sequence of lifecycle calls. -/
theorem timestamps_ok_applyOps : ∀ (ops : List StepOp) (s : TaskStep),
    timestamps_ok s → timestamps_ok (applyOps s ops)
  | [], _, h => h
  | op :: ops, s, _ =>
      timestamps_ok_applyOps ops (applyOp s op) (timestamps_ok_applyOp s op)

/-- Claim C10: after any sequence of `mark_started` / `mark_completed` /
`mark_failed` calls on a freshly created (pending, no timestamps) step,
a `completed` or `failed` status implies a non-null `completed_at` and an
`in_progress` status implies a non-null `started_at`; and a single
`mark_failed` straight from `pending` sets `completed_at` while leaving
`started_at` null. -/
theorem step_timestamp_invariant (s0 : TaskStep) (ops : List StepOp)
    (e : String) (n : Nat) (hpend : s0.status = TaskStatus.pending)
    (hstart : s0.started_at = none) :
    timestamps_ok (applyOps s0 ops)
    ∧ (applyOp s0 (.fail e n)).status = TaskStatus.failed
    ∧ (applyOp s0 (.fail e n)).completed_at = some n
    ∧ (applyOp s0 (.fail e n)).started_at = none := by
  refine ⟨timestamps_ok_applyOps ops s0 ?_, rfl, rfl, ?_⟩
  · constructor
    · intro h
      rcases h with h | h <;> rw [hpend] at h <;> cases h
    · intro h
      rw [hpend] at h
      cases h
  · simpa [applyOp, TaskStep.mark_failed] using hstart

/-- Claim C10 witness: the invariant evaluated on a concrete fresh step
and call sequence. -/
theorem step_timestamp_invariant_witness :
    timestamps_ok (applyOps exSolo
      [StepOp.start 1, StepOp.complete (some "r") 2])
    ∧ (applyOp exSolo (.fail "boom" 5)).status = TaskStatus.failed
    ∧ (applyOp exSolo (.fail "boom" 5)).completed_at = some 5
    ∧ (applyOp exSolo (.fail "boom" 5)).started_at = none :=
  step_timestamp_invariant exSolo
    [StepOp.start 1, StepOp.complete (some "r") 2] "boom" 5 rfl rfl

/-- One-iteration unfolding of the `execute_task` loop. -/
theorem execLoop_succ (o : Nat → StepOutcome) (m f : Nat) (st : ExecState) :
    execLoop o m (f + 1) st =
      if stepsComplete st.steps then some (st, false)
      else if readyIndices st.steps st.completed_steps = []
              ∧ st.steps.any (fun s => s.status == TaskStatus.pending)
      then some (st, true)
      else execLoop o m f (loopNext o m st) := rfl

/-- Claim C9 (amended): in every loop iteration of `execute_task`, at
most `max_concurrent_tasks` ready steps are dispatched in one batch —
but the bound is the planner's single `max_concurrent_tasks`
configuration value (default 3), the same value that bounds
simultaneously-running tasks in the scheduler loop; no independent
`max_concurrent_steps` configuration input exists. -/
theorem batch_size_bounded (o : Nat → StepOutcome) (m : Nat) (fuel : Nat) :
    ∀ (st : ExecState) (res : ExecState × Bool),
      (∀ b ∈ st.batches, b.length ≤ m) →
      execLoop o m fuel st = some res →
      ∀ b ∈ res.1.batches, b.length ≤ m := by
  induction fuel with
  | zero =>
    intro st res _ h
    simp [execLoop] at h
  | succ f ih =>
    intro st res hb h
    rw [execLoop_succ] at h
    split at h
    · cases h
      exact hb
    · split at h
      · cases h
        exact hb
      · refine ih (loopNext o m st) res ?_ h
        intro b hbmem
        have hbatches : (loopNext o m st).batches
            = st.batches
              ++ [(readyIndices st.steps st.completed_steps).take m] := rfl
        rw [hbatches, List.mem_append] at hbmem
        rcases hbmem with h1 | h1
        · exact hb b h1
        · simp only [List.mem_singleton] at h1
          subst h1
          exact List.length_take_le _ _

/-- Claim C9 counterexample: with a configuration that sets only the
spec's `max_concurrent_steps` key (to 1), the planner reads
`max_concurrent_tasks` (default 3) and the first iteration dispatches a
batch of three steps — more than the claimed independent per-task step
bound allows. -/
theorem step_bound_counterexample :
    (execLoop alwaysOk (planner_max_concurrent_tasks c9config) 5
        c9state).map (fun p => p.1.batches)
      = some [[0, 1, 2], [3]]
    ∧ ¬ (∀ b ∈ [[0, 1, 2], ([3] : List Nat)],
          b.length ≤ spec_max_concurrent_steps c9config) := by
  exact ⟨rfl, by decide⟩

/-- Claim C9 witness: the bound theorem applied to a concrete one-step
run under the default configuration. -/
theorem batch_size_bounded_witness :
    ([0] : List Nat).length ≤ planner_max_concurrent_tasks [] :=
  batch_size_bounded alwaysOk (planner_max_concurrent_tasks []) 2
    { steps := [exSolo] } (c9soloFinal, false)
    (by simp) (by decide) [0] (by simp [c9soloFinal])

/-- Claim C1 counterexample: in a concrete `execute_task` run (steps
`a` with a validation criterion and a `None` result, `b` depending on
`a`, `d` whose executor raises, `c` depending on `d`), the loop ends
blocked with `completed_steps = ["a", "b"]`: the identifier of step `a`,
whose status is `failed` (failure by validation), was added to
`completed_ids`, and its dependent `b` was then started and ran to
`completed` although its prerequisite never reached
`completed`/`cancelled`. -/
theorem failed_step_in_completed_ids :
    (execLoop c1outcome 3 10 c1state).map (fun p =>
        (p.1.completed_steps,
         (p.1.steps.get? 0).map TaskStep.status,
         (p.1.steps.get? 1).map TaskStep.status,
         p.2))
      = some (["a", "b"], some TaskStatus.failed,
              some TaskStatus.completed, true) := by
  decide

/-- Claim C1 (amended): during `execute_task`, a step's identifier is
appended to `completed_ids` exactly when its runner returned without
raising: the identifier of a step whose executor raised is never added,
but the identifier of a step that failed validation (runner returned the
invalid result, step status `failed`) is added — so a dependent of a
validation-failed step can still start. -/
theorem completed_ids_iff_runner_returned (o : Nat → StepOutcome)
    (now : Nat) (st : ExecState) (i : Nat) (step : TaskStep)
    (h : st.steps.get? i = some step) :
    (runOne o now st i).completed_steps
      = st.completed_steps ++
          (match o i with
           | .success _ => [step.step_id]
           | .failure _ => [])
    ∧ ((runOne o now st i).steps.get? i).map TaskStep.status
      = some (match o i with
          | .success r =>
              if validate_step step r then TaskStatus.completed
              else TaskStatus.failed
          | .failure _ => TaskStatus.failed) := by
  have hlt : i < st.steps.length := by
    by_contra hge
    rw [List.get?_eq_none.mpr (le_of_not_lt hge)] at h
    cases h
  have h2 : st.steps[i]? = some step := by
    rw [← List.get?_eq_getElem?]; exact h
  have hset : ∀ q : TaskStep, (st.steps.set i q)[i]? = some q :=
    fun q => List.getElem?_set_eq_of_lt q hlt
  have hvs : ∀ r, validate_step (step.mark_started now) r
      = validate_step step r := fun _ => rfl
  cases ho : o i with
  | success r =>
    by_cases hv : validate_step step r = true
    · have he : execute_step step (StepOutcome.success r) now
          = ((step.mark_started now).mark_completed r now, Except.ok r) := by
        simp [execute_step, hvs, hv]
      constructor
      · simp [runOne, h2, ho, he]
      · simp [runOne, h2, ho, he, hset, hv, TaskStep.mark_completed]
    · have he : execute_step step (StepOutcome.success r) now
          = ((step.mark_started now).mark_failed "Validation failed" now,
             Except.ok r) := by
        simp [execute_step, hvs, hv]
      constructor
      · simp [runOne, h2, ho, he]
      · simp [runOne, h2, ho, he, hset, hv, TaskStep.mark_failed]
  | failure e =>
    have he : execute_step step (StepOutcome.failure e) now
        = ((step.mark_started now).mark_failed e now, Except.error e) := rfl
    constructor
    · simp [runOne, h2, ho, he]
    · simp [runOne, h2, ho, he, hset, TaskStep.mark_failed]

/-- Claim C1 witness: the amended statement at the concrete
validation-failure dispatch (step `a`, result `None`, criteria
non-empty): the id is appended although the resulting status is
`failed`. -/
theorem completed_ids_iff_runner_returned_witness :
    (runOne c1outcome 0 c1state 0).completed_steps = ["a"]
    ∧ ((runOne c1outcome 0 c1state 0).steps.get? 0).map TaskStep.status
        = some TaskStatus.failed := by
  have h := completed_ids_iff_runner_returned c1outcome 0 c1state 0
    exStepA rfl
  refine ⟨?_, ?_⟩
  · rw [h.1]; decide
  · rw [h.2]; decide

/-- Once the only step has failed there is no ready step and no pending
step, so the blocked branch is never taken, the batch is empty, and the
loop state repeats (only the observer trace grows): the loop never
exits, whatever the fuel. -/
theorem execLoop_stuck_on_failed :
    ∀ (n : Nat) (cs : List String) (rs : List (String × Option String))
      (bs : List (List Nat)),
      execLoop alwaysFail 3 n
        { steps := [exSoloFailed]
          completed_steps := cs
          results := rs
          batches := bs } = none := by
  intro n
  induction n with
  | zero => intro cs rs bs; rfl
  | succ f ih =>
    intro cs rs bs
    exact ih cs rs (bs ++ [[]])

/-- Claim C3 counterexample: on the one-step task whose executor raises,
`execute_task` never terminates: after the first iteration the step is
`failed`, no step is `pending` (so the blocked branch never fires), the
ready set stays empty, and the task is never complete — the `while` loop
spins forever for every fuel bound. -/
theorem execute_task_can_hang :
    ¬ ∃ fuel, (execute_task alwaysFail 3 fuel c3task).isSome = true := by
  rintro ⟨fuel, hs⟩
  have hnone : execLoop alwaysFail 3 fuel { steps := [exSolo] } = none := by
    cases fuel with
    | zero => rfl
    | succ f =>
      exact execLoop_stuck_on_failed f [] [] [[0]]
  have hfin : execute_task alwaysFail 3 fuel c3task = none := by
    unfold execute_task
    rw [show ({ steps := c3task.steps } : ExecState)
        = { steps := [exSolo] } from rfl, hnone]
  rw [hfin] at hs
  exact absurd hs (by decide)

/-- `countP` across a single in-place update. -/
theorem countP_set (p : TaskStep → Bool) (l : List TaskStep) :
    ∀ (i : Nat) (a s : TaskStep), l.get? i = some s →
      (l.set i a).countP p + (if p s then 1 else 0)
        = l.countP p + (if p a then 1 else 0) := by
  induction l with
  | nil => intro i a s h; simp at h
  | cons x xs ih =>
    intro i a s h
    cases i with
    | zero =>
      simp only [List.get?] at h
      injection h with h
      subst h
      simp only [List.set, List.countP_cons]
      split_ifs <;> omega
    | succ j =>
      simp only [List.get?] at h
      have hrec := ih j a s h
      simp only [List.set, List.countP_cons]
      split_ifs at hrec ⊢ <;> omega

/-- `_execute_step` never leaves a step `PENDING`: the resulting status
is `completed` or `failed`. -/
theorem execute_step_status_ne_pending (step : TaskStep)
    (o : StepOutcome) (now : Nat) :
    (execute_step step o now).1.status ≠ TaskStatus.pending := by
  cases o with
  | success r =>
    by_cases hv : validate_step (step.mark_started now) r = true <;>
      simp [execute_step, hv, TaskStep.mark_completed, TaskStep.mark_failed]
  | failure e => simp [execute_step, TaskStep.mark_failed]

/-- A non-null executor result always validates, so `_execute_step`
marks the step `completed`. -/
theorem execute_step_status_completed (step : TaskStep) (r : String)
    (now : Nat) :
    (execute_step step (.success (some r)) now).1.status
      = TaskStatus.completed := by
  have hv : validate_step (step.mark_started now) (some r) = true := by
    unfold validate_step
    split <;> simp
  simp [execute_step, hv, TaskStep.mark_completed]

/-- When the index is absent, one runner is the identity. -/
theorem runOne_none (o : Nat → StepOutcome) (now : Nat) (st : ExecState)
    (i : Nat) (h : st.steps.get? i = none) :
    runOne o now st i = st := by
  have h2 : st.steps[i]? = none := by
    rw [← List.get?_eq_getElem?]; exact h
  simp [runOne, h2]

/-- The step list after one runner: the dispatched step replaced by its
`_execute_step` result. -/
theorem runOne_steps (o : Nat → StepOutcome) (now : Nat) (st : ExecState)
    (i : Nat) (step : TaskStep) (h : st.steps.get? i = some step) :
    (runOne o now st i).steps
      = st.steps.set i (execute_step step (o i) now).1 := by
  have h2 : st.steps[i]? = some step := by
    rw [← List.get?_eq_getElem?]; exact h
  rcases hE : (execute_step step (o i) now).2 with e | res <;>
    simp [runOne, h2, hE]

/-- One runner never increases the number of pending steps. -/
theorem pendingCount_runOne_le (o : Nat → StepOutcome) (now : Nat)
    (st : ExecState) (i : Nat) :
    pendingCount (runOne o now st i).steps ≤ pendingCount st.steps := by
  cases h : st.steps.get? i with
  | none => rw [runOne_none o now st i h]
  | some step =>
    rw [runOne_steps o now st i step h]
    have hset := countP_set (fun s => s.status == TaskStatus.pending)
      st.steps i (execute_step step (o i) now).1 step h
    have hq : ((execute_step step (o i) now).1.status
        == TaskStatus.pending) = false := by
      simpa [beq_iff_eq] using execute_step_status_ne_pending step (o i) now
    simp only [hq] at hset
    unfold pendingCount
    split_ifs at hset
    all_goals try exact absurd ‹False› not_false
    all_goals omega

/-- Running a `PENDING` step strictly decreases the pending count. -/
theorem pendingCount_runOne_lt (o : Nat → StepOutcome) (now : Nat)
    (st : ExecState) (i : Nat) (step : TaskStep)
    (h : st.steps.get? i = some step)
    (hp : step.status = TaskStatus.pending) :
    pendingCount (runOne o now st i).steps < pendingCount st.steps := by
  rw [runOne_steps o now st i step h]
  have hset := countP_set (fun s => s.status == TaskStatus.pending)
    st.steps i (execute_step step (o i) now).1 step h
  have hq : ((execute_step step (o i) now).1.status
      == TaskStatus.pending) = false := by
    simpa [beq_iff_eq] using execute_step_status_ne_pending step (o i) now
  have hps : (step.status == TaskStatus.pending) = true := by
    simp [hp]
  simp only [hq, hps] at hset
  unfold pendingCount
  split_ifs at hset
  all_goals try exact absurd ‹False› not_false
  all_goals omega

/-- A whole awaited batch never increases the pending count. -/
theorem pendingCount_foldl_le (o : Nat → StepOutcome) (now : Nat) :
    ∀ (batch : List Nat) (st : ExecState),
      pendingCount ((batch.foldl (runOne o now) st).steps)
        ≤ pendingCount st.steps := by
  intro batch
  induction batch with
  | nil => intro st; exact le_refl _
  | cons b bs ih =>
    intro st
    exact le_trans (ih (runOne o now st b))
      (pendingCount_runOne_le o now st b)

/-- With an executor that always returns a non-null result, one runner
keeps every status in {pending, completed, cancelled}. -/
theorem goodSteps_runOne (o : Nat → StepOutcome) (now : Nat)
    (st : ExecState) (i : Nat)
    (ho : ∀ j, ∃ r, o j = StepOutcome.success (some r))
    (hg : goodSteps st.steps) : goodSteps (runOne o now st i).steps := by
  cases h : st.steps.get? i with
  | none => rw [runOne_none o now st i h]; exact hg
  | some step =>
    rw [runOne_steps o now st i step h]
    intro s hs
    rcases List.mem_or_eq_of_mem_set hs with hmem | rfl
    · exact hg s hmem
    · obtain ⟨r, hr⟩ := ho i
      rw [hr]
      exact Or.inr (Or.inl (execute_step_status_completed step r now))

/-- Batch version of `goodSteps_runOne`. -/
theorem goodSteps_foldl (o : Nat → StepOutcome) (now : Nat)
    (ho : ∀ j, ∃ r, o j = StepOutcome.success (some r)) :
    ∀ (batch : List Nat) (st : ExecState), goodSteps st.steps →
      goodSteps ((batch.foldl (runOne o now) st).steps) := by
  intro batch
  induction batch with
  | nil => intro st hg; exact hg
  | cons b bs ih =>
    intro st hg
    exact ih (runOne o now st b) (goodSteps_runOne o now st b ho hg)

/-- A good step list with no pending member is complete. -/
theorem stepsComplete_of_no_pending (steps : List TaskStep)
    (hg : goodSteps steps)
    (hnp : steps.any (fun s => s.status == TaskStatus.pending) = false) :
    stepsComplete steps = true := by
  rw [stepsComplete, List.all_eq_true]
  intro s hs
  rcases hg s hs with h | h | h
  · exfalso
    rw [List.any_eq_false] at hnp
    exact hnp s hs (by simp [h])
  · simp [h]
  · simp [h]

/-- Membership in the ready set forces the step to exist and be
pending. -/
theorem mem_readyIndices (steps : List TaskStep) (c : List String)
    (i : Nat) (hi : i ∈ readyIndices steps c) :
    ∃ s, steps.get? i = some s ∧ s.status = TaskStatus.pending := by
  rw [readyIndices, List.mem_filter, List.mem_range] at hi
  obtain ⟨hlt, hp⟩ := hi
  obtain ⟨s, hgs⟩ : ∃ s, steps.get? i = some s := by
    rw [List.get?_eq_get hlt]; exact ⟨_, rfl⟩
  refine ⟨s, hgs, ?_⟩
  rw [hgs] at hp
  simp only [Option.map_some', Option.getD_some, Bool.and_eq_true,
    beq_iff_eq] at hp
  exact hp.1

/-- The loop terminates within `pendingCount` iterations when every
executor call returns a non-null result and every status is good. -/
theorem execLoop_terminates (o : Nat → StepOutcome) (m : Nat)
    (hm : 1 ≤ m) (ho : ∀ j, ∃ r, o j = StepOutcome.success (some r)) :
    ∀ (fuel : Nat) (st : ExecState), goodSteps st.steps →
      pendingCount st.steps < fuel →
      ∃ res, execLoop o m fuel st = some res := by
  intro fuel
  induction fuel with
  | zero => intro st _ h; omega
  | succ f ih =>
    intro st hg hcnt
    rw [execLoop_succ]
    by_cases hc : stepsComplete st.steps = true
    · rw [if_pos hc]
      exact ⟨(st, false), rfl⟩
    · rw [if_neg hc]
      by_cases hb : readyIndices st.steps st.completed_steps = []
          ∧ (st.steps.any (fun s => s.status == TaskStatus.pending)) = true
      · rw [if_pos hb]
        exact ⟨(st, true), rfl⟩
      · rw [if_neg hb]
        have hready : readyIndices st.steps st.completed_steps ≠ [] := by
          intro h0
          apply hb
          refine ⟨h0, ?_⟩
          by_contra hnp
          exact hc (stepsComplete_of_no_pending st.steps hg
            (Bool.eq_false_iff.mpr (fun hx => hnp hx)))
        obtain ⟨i0, rtl, hr0⟩ := List.exists_cons_of_ne_nil hready
        obtain ⟨m', rfl⟩ : ∃ m', m = m' + 1 := ⟨m - 1, by omega⟩
        obtain ⟨s0, hgs0, hps0⟩ := mem_readyIndices st.steps
          st.completed_steps i0
          (by rw [hr0]; exact List.mem_cons_self _ _)
        have hsteps_eq : (loopNext o (m' + 1) st).steps
            = (((readyIndices st.steps st.completed_steps).take
                (m' + 1)).foldl (runOne o 0) st).steps := rfl
        have hnext_cnt : pendingCount (loopNext o (m' + 1) st).steps
            < pendingCount st.steps := by
          rw [hsteps_eq, hr0, List.take_succ_cons, List.foldl_cons]
          exact lt_of_le_of_lt (pendingCount_foldl_le o 0 _ _)
            (pendingCount_runOne_lt o 0 st i0 s0 hgs0 hps0)
        have hnext_good : goodSteps (loopNext o (m' + 1) st).steps := by
          rw [hsteps_eq]
          exact goodSteps_foldl o 0 ho _ st hg
        exact ih (loopNext o (m' + 1) st) hnext_good (by omega)

/-- Claim C3 (amended): `execute_task` terminates with final status
`completed` or `blocked` for every task whose steps start in
{pending, completed, cancelled} when the per-batch bound is at least 1
and every executor call returns a non-null result (so no step ends
`failed`); when a step does end `failed` and afterwards no pending step
remains, the loop never exits (see the counterexample). -/
theorem execute_task_terminates_without_failures (o : Nat → StepOutcome)
    (m : Nat) (t : Task) (hm : 1 ≤ m)
    (ho : ∀ j, ∃ r, o j = StepOutcome.success (some r))
    (hg : ∀ s ∈ t.steps, s.status = TaskStatus.pending
        ∨ s.status = TaskStatus.completed
        ∨ s.status = TaskStatus.cancelled) :
    ∃ t', execute_task o m (t.steps.length + 1) t = some t'
      ∧ (t'.status = TaskStatus.completed
         ∨ t'.status = TaskStatus.blocked) := by
  obtain ⟨⟨st, b⟩, hres⟩ := execLoop_terminates o m hm ho
    (t.steps.length + 1) { steps := t.steps } hg
    (by
      have hle := List.countP_le_length
        (fun s => s.status == TaskStatus.pending) (l := t.steps)
      show pendingCount t.steps < t.steps.length + 1
      rw [pendingCount]
      omega)
  cases b with
  | false =>
    refine ⟨{ t with
      steps := st.steps
      status := TaskStatus.completed
      started_at := some 0
      completed_at := some 0 }, ?_, Or.inl rfl⟩
    simp [execute_task, hres]
  | true =>
    refine ⟨{ t with
      steps := st.steps
      status := TaskStatus.blocked
      started_at := some 0 }, ?_, Or.inr rfl⟩
    simp [execute_task, hres]

/-- Claim C3 witness: the amended theorem applied to the concrete cyclic
task under an always-succeeding executor (it terminates blocked). -/
theorem execute_task_terminates_witness :
    ∃ t', execute_task alwaysOk 3 (c4task.steps.length + 1) c4task
        = some t'
      ∧ (t'.status = TaskStatus.completed
         ∨ t'.status = TaskStatus.blocked) :=
  execute_task_terminates_without_failures alwaysOk 3 c4task (by decide)
    (fun _ => ⟨"r", rfl⟩) (by decide)

end Strategix
